import Mathlib

/-!
Shallow embedding of `vmdk-conversion/convert.py`: the `SimpleHivex`
registry-hive editor and the `Image` conversion dispatch/orchestration
logic built on top of it.  Registry hives are modelled the way the
`hivex` library exposes them: a flat store of nodes addressed by
handles, each node carrying a parent handle, a name and a list of
typed values.  Guest-filesystem collaborators (guestfs download,
upload, mkdir) are modelled as an event trace on a `World` state.
-/

set_option autoImplicit false

namespace VmdkConversion

/-- A typed registry value: the `dict(key, t, value)` passed to
`hivex.node_set_value`; `value` is the raw byte string. -/
structure RegValue where
  key : String
  t : Nat
  value : List Nat
  deriving DecidableEq, Repr

/-- One hive node as held by hivex: parent handle (none for the root),
name, and the list of values set on the node. -/
structure HNode where
  parent : Option Nat
  name : String
  vals : List RegValue
  deriving DecidableEq, Repr

/-- An open hive: a store of nodes addressed by their list index.
Index 0 is the root node (`hivex.Hivex.root`). -/
structure Hivex where
  nodes : List HNode
  deriving DecidableEq, Repr

/-- Handle of the hive root node. -/
def hiveRoot : Nat := 0

/-- Find the first child of node `p` named `a`: models
`hivex.node_get_child` (returns `none` when there is no such child).
The returned number is the index into the node store. -/
def findChild : List HNode → Nat → String → Option Nat
  | [], _, _ => none
  | nd :: rest, p, a =>
    if nd.parent = some p ∧ nd.name = a then some 0
    else (findChild rest p a).map (fun i => i + 1)

/-- Number of children of node `p` named `a`. -/
def childCount : List HNode → Nat → String → Nat
  | [], _, _ => 0
  | nd :: rest, p, a =>
    (if nd.parent = some p ∧ nd.name = a then 1 else 0) + childCount rest p a

/-- Replace the value keyed `v.key` in a node's value list, appending it
when absent: the overwrite semantics of `hivex.node_set_value`. -/
def setVal : List RegValue → RegValue → List RegValue
  | [], v => [v]
  | w :: rest, v => if w.key = v.key then v :: rest else w :: setVal rest v

/-- Look up a value by key in a node's value list. -/
def lookupVal : List RegValue → String → Option RegValue
  | [], _ => none
  | w :: rest, k => if w.key = k then some w else lookupVal rest k

/-- Update the value list of the node at index `n`. -/
def setNodeValue : List HNode → Nat → RegValue → List HNode
  | [], _, _ => []
  | nd :: rest, 0, v => { nd with vals := setVal nd.vals v } :: rest
  | nd :: rest, n + 1, v => nd :: setNodeValue rest n v

/-- Append a fresh child named `a` under node `p`: models
`hivex.node_add_child`.  Returns the extended store and the new handle. -/
def addChild (nodes : List HNode) (p : Nat) (a : String) : List HNode × Nat :=
  (nodes ++ [⟨some p, a, []⟩], nodes.length)

/-- Read a value of node `n` by key: models `hivex.node_get_value`
(which raises when the value is missing, hence `Option` here). -/
def getVal (h : Hivex) (n : Nat) (k : String) : Option RegValue :=
  match h.nodes[n]? with
  | some nd => lookupVal nd.vals k
  | none => none

/-- Decode the first four bytes little-endian as a signed 32-bit
integer: models `hivex.value_dword`. -/
def value_dword (bs : List Nat) : Int :=
  let u : Nat := bs.getD 0 0 + 256 * bs.getD 1 0 + 65536 * bs.getD 2 0 + 16777216 * bs.getD 3 0
  if u < 2147483648 then (u : Int) else (u : Int) - 4294967296

/-- UTF-16 code units of one character (surrogate pair above U+FFFF). -/
def utf16Units (c : Char) : List Nat :=
  let n := c.toNat
  if n < 65536 then [n]
  else [55296 + (n - 65536) / 1024, 56320 + (n - 65536) % 1024]

/-- Little-endian byte serialisation of a list of 16-bit units. -/
def unitsToBytesLE : List Nat → List Nat
  | [] => []
  | u :: rest => u % 256 :: u / 256 :: unitsToBytesLE rest

/-- UTF-16 little-endian encoding of a string with no terminator:
models Python `value.encode('utf-16le')`. -/
def utf16le (s : String) : List Nat :=
  unitsToBytesLE (s.data.foldr (fun c acc => utf16Units c ++ acc) [])

/-- Four little-endian bytes of an unsigned 32-bit integer: the payload
of `struct.pack('I', value)`. -/
def packI (n : Nat) : List Nat :=
  [n % 256, n / 256 % 256, n / 65536 % 256, n / 16777216 % 256]

/-- Zero-padded decimal formatting, Python `'%03d' % n`. -/
def fmt03d (n : Int) : String :=
  let s := toString n.natAbs
  let w : Nat := if n < 0 then 2 else 3
  let pad := String.mk (List.replicate (w - s.length) '0')
  (if n < 0 then "-" else "") ++ pad ++ s

/-- Split a character list on `'/'`, Python `str.split('/')` semantics
(an empty input yields one empty field). -/
def splitSlash : List Char → List (List Char)
  | [] => [[]]
  | c :: rest =>
    match splitSlash rest with
    | [] => [[]]
    | g :: gs => if c = '/' then [] :: g :: gs else (c :: g) :: gs

/-- Python `key_path.split('/')`. -/
def pySplit (s : String) : List String :=
  (splitSlash s.data).map String.mk

/-- Errors surfaced by the hive layer, driver resolution and dispatch.
Each constructor models one exception raised by `convert.py` and keeps
the context the message carries. -/
inductive Err where
  /-- `ValueError('No key %s')` from `SimpleHivex.navigate_to`. -/
  | keyNotFound (key : String)
  /-- `RuntimeError('Cannot add subkey: %s')` from `add_subkey`. -/
  | subkeyCreateFailed (name : String)
  /-- `ValueError('Unknown value type: %s')` from value encoding. -/
  | unsupportedValueType (t : Nat)
  /-- `struct.error` from `struct.pack('I', value)` out of range. -/
  | structError
  /-- Encoding a non-string as a registry string. -/
  | typeError
  /-- hivex error reading a missing value (`node_get_value`). -/
  | missingValue (key : String)
  /-- Python `IndexError` from `keys[0]` on an empty list. -/
  | indexError
  /-- `ValueError('No virtio drivers for version "%s"')`. -/
  | unsupportedGuestVersion (version : String)
  /-- `KeyError` from the static architecture map lookup. -/
  | unsupportedArchitecture (arch : String)
  /-- `ValueError('No converter to "%s" for platform "%s"')`. -/
  | noConverter (hypervisor ostype : String)
  /-- `NotImplementedError` from the xen conversion routines. -/
  | notImplemented (msg : String)
  /-- Missing local hive file (unreachable on the modelled paths). -/
  | noHiveFile
  deriving DecidableEq, Repr

/-- Registry value type tags of `SimpleHivex`. -/
def REG_SZ : Nat := 1

/-- Expandable-string type tag. -/
def REG_EXPAND_SZ : Nat := 2

/-- 32-bit little-endian integer type tag. -/
def REG_DWORD : Nat := 4

/-- The mutable state of one `SimpleHivex` editor: the open hive, the
at-root flag, the cursor node and the cached control-set alias. -/
structure SH where
  h : Hivex
  at_root : Bool
  current_node : Nat
  ccs : String
  deriving DecidableEq, Repr

namespace SimpleHivex

/-- Construction of a `SimpleHivex`: open the hive at the root, read
`Select\Current` to cache the control-set alias, falling back to the
literal `CurrentControlSet` when `Select` is absent. -/
def init (hv : Hivex) : Except Err SH :=
  match findChild hv.nodes hiveRoot "Select" with
  | none => .ok ⟨hv, true, hiveRoot, "CurrentControlSet"⟩
  | some sel =>
    match getVal hv sel "Current" with
    | none => .error (.missingValue "Current")
    | some v => .ok ⟨hv, true, hiveRoot, "ControlSet" ++ fmt03d (value_dword v.value)⟩

/-- Descend one path segment at a time by exact child-name match,
failing with `keyNotFound` at the first missing segment. -/
def navLoop : SH → List String → Except Err SH
  | sh, [] => .ok sh
  | sh, k :: rest =>
    match findChild sh.h.nodes sh.current_node k with
    | none => .error (.keyNotFound k)
    | some c => navLoop ⟨sh.h, false, c, sh.ccs⟩ rest

/-- Model of `SimpleHivex.navigate_to`: split on `/`, reset to the root
on a leading slash, substitute the cached alias for a root-relative
first segment `CurrentControlSet`, then descend segment by segment. -/
def navigate_to (sh : SH) (key_path : String) : Except Err SH :=
  match pySplit key_path with
  | [] => .error .indexError
  | k0 :: rest =>
    let st := if k0 = "" then (rest, ({ h := sh.h, at_root := true, current_node := hiveRoot, ccs := sh.ccs } : SH)) else (k0 :: rest, sh)
    if st.2.at_root then
      match st.1 with
      | [] => .error .indexError
      | k :: ks => navLoop st.2 ((if k = "CurrentControlSet" then st.2.ccs else k) :: ks)
    else navLoop st.2 st.1

/-- Model of `SimpleHivex.add_subkey`: look the child up; create it if
absent; either way the cursor moves to the child and leaves the root. -/
def add_subkey (sh : SH) (name : String) : SH :=
  match findChild sh.h.nodes sh.current_node name with
  | some sk => ⟨sh.h, false, sk, sh.ccs⟩
  | none =>
    let r := addChild sh.h.nodes sh.current_node name
    ⟨⟨r.1⟩, false, r.2, sh.ccs⟩

/-- A Python value handed to `_add_value`: a string or an integer. -/
inductive PyVal where
  | str (s : String)
  | int (n : Int)
  deriving DecidableEq, Repr

/-- The value codec of `SimpleHivex._add_value`: strings and expandable
strings encode as UTF-16LE, dwords pack as four little-endian bytes
(failing outside the unsigned 32-bit range), every other tag fails. -/
def encodeValue (value_type : Nat) (value : PyVal) : Except Err (List Nat) :=
  if value_type = REG_SZ ∨ value_type = REG_EXPAND_SZ then
    match value with
    | .str s => .ok (utf16le s)
    | .int _ => .error .typeError
  else if value_type = REG_DWORD then
    match value with
    | .int n => if 0 ≤ n ∧ n < 4294967296 then .ok (packI n.toNat) else .error .structError
    | .str _ => .error .structError
  else .error (.unsupportedValueType value_type)

/-- Model of `SimpleHivex._add_value`: encode, then set the value on
the cursor node.  On an encoding error nothing is written. -/
def add_value (sh : SH) (value_type : Nat) (key : String) (value : PyVal) : Except Err SH :=
  match encodeValue value_type value with
  | .error e => .error e
  | .ok bs => .ok ⟨⟨setNodeValue sh.h.nodes sh.current_node ⟨key, value_type, bs⟩⟩, sh.at_root, sh.current_node, sh.ccs⟩

/-- Model of `add_reg_sz`. -/
def add_reg_sz (sh : SH) (key value : String) : Except Err SH :=
  add_value sh REG_SZ key (.str value)

/-- Model of `add_reg_expand_sz`. -/
def add_reg_expand_sz (sh : SH) (key value : String) : Except Err SH :=
  add_value sh REG_EXPAND_SZ key (.str value)

/-- Model of `add_reg_dword`. -/
def add_reg_dword (sh : SH) (key : String) (value : Int) : Except Err SH :=
  add_value sh REG_DWORD key (.int value)

end SimpleHivex

/-- The storage-class GUID written for the viostor controller. -/
def classGuid : String := "\x7b4D36E97B-E325-11CE-BFC1-08002BE10318\x7d"

/-- Absolute guest path of the staged driver binary, as the Python
literal `'C:\\\\v2v-virtio\\\\VIOSTOR.SYS'` evaluates. -/
def imagePath : String := "C:\\\\v2v-virtio\\\\VIOSTOR.SYS"

/-- The three fixed subsystem-ID suffixes of `Image._stub_viostor`. -/
def subsysSuffixes : List String := ["00000000", "00020000", "00021af4"]

/-- Critical-device-database subkey name for one subsystem suffix. -/
def pciName (suffix : String) : String :=
  "pci#ven_1af4&dev_1001&subsys_" ++ suffix

/-- Path navigated to before each critical-device-database write. -/
def cddPath : String := "/CurrentControlSet/Control/CriticalDeviceDatabase"

/-- Path navigated to before the service-entry writes. -/
def servicesPath : String := "/CurrentControlSet/Services"

namespace SimpleHivex

/-- One iteration of the critical-device-database loop of
`Image._stub_viostor`: navigate, create the pci subkey, write the
`ClassGUID` and `Service` strings. -/
def stubOne (sh : SH) (suffix : String) : Except Err SH :=
  match navigate_to sh cddPath with
  | .error e => .error e
  | .ok sh1 =>
    let sh2 := add_subkey sh1 (pciName suffix)
    match add_reg_sz sh2 "ClassGUID" classGuid with
    | .error e => .error e
    | .ok sh3 => add_reg_sz sh3 "Service" "viostor"

/-- The critical-device-database loop over the subsystem suffixes. -/
def stubCDD : SH → List String → Except Err SH
  | sh, [] => .ok sh
  | sh, s :: rest =>
    match stubOne sh s with
    | .error e => .error e
    | .ok sh1 => stubCDD sh1 rest

/-- The service-entry part of `Image._stub_viostor`: navigate to the
services key, create `viostor`, and write its six values. -/
def stubServices (sh : SH) : Except Err SH :=
  match navigate_to sh servicesPath with
  | .error e => .error e
  | .ok sh1 =>
    let sh2 := add_subkey sh1 "viostor"
    match add_reg_dword sh2 "ErrorControl" 1 with
    | .error e => .error e
    | .ok sh3 =>
      match add_reg_sz sh3 "Group" "SCSI miniport" with
      | .error e => .error e
      | .ok sh4 =>
        match add_reg_dword sh4 "Start" 0 with
        | .error e => .error e
        | .ok sh5 =>
          match add_reg_dword sh5 "Tag" 33 with
          | .error e => .error e
          | .ok sh6 =>
            match add_reg_dword sh6 "Type" 1 with
            | .error e => .error e
            | .ok sh7 => add_reg_expand_sz sh7 "ImagePath" imagePath

/-- All hive edits of `Image._stub_viostor` before the final commit. -/
def stubScript (sh : SH) : Except Err SH :=
  match stubCDD sh subsysSuffixes with
  | .error e => .error e
  | .ok sh1 => stubServices sh1

end SimpleHivex

/-- External side effects of one conversion run: guest file transfers,
guest directory creation, committing the local hive file, and (never
emitted by the source) deletion of a host temporary directory. -/
inductive Event where
  | download (remote localPath : String)
  | upload (src dst : String)
  | mkdirP (p : String)
  | commitHive
  | rmtree (p : String)
  deriving DecidableEq, Repr

/-- Host/guest state threaded through a conversion run: the content of
the downloaded local hive file (none before download) and the ordered
trace of external effects. -/
structure World where
  localHive : Option Hivex
  events : List Event
  deriving DecidableEq, Repr

/-- The world before a conversion run. -/
def World.init : World := ⟨none, []⟩

/-- Inspection results and collaborator-provided data for one guest
image: the system-hive content, the inspected version/arch/OS type, the
regular files in the resolved virtio source directory, and whether the
guest destination directory already exists. -/
structure Env where
  hive : Hivex
  major : Nat
  minor : Nat
  arch : String
  ostype : String
  sourceFiles : List String
  destDirIsDir : Bool
  deriving DecidableEq, Repr

/-- The fixed guest destination directory of `_upload_virtio`. -/
def destPath : String := "/v2v-virtio"

/-- Model of the `tempfile.mkdtemp()` result in
`_windows_common_fixups`. -/
def tmpdir : String := "/tmp/v2vtmp"

/-- The static guest-version-to-driver-package map of
`_upload_virtio`. -/
def versionMap (v : String) : Option String :=
  if v = "6.2" then some "WIN8"
  else if v = "6.1" then some "WIN7"
  else if v = "6.0" then some "WLH"
  else if v = "5.2" then some "WNET"
  else none

/-- The static CPU-architecture map of `_upload_virtio`. -/
def winArchMap (a : String) : Option String :=
  if a = "x86_64" then some "AMD64"
  else if a = "i386" then some "X86"
  else none

namespace Image

/-- Model of `Image._download_hive` for the system hive: download the
guest hive into the temporary directory and record the event. -/
def downloadHiveM (env : Env) (w : World) : Except Err String × World :=
  let remote := "/windows/system32/config/system"
  let localPath := tmpdir ++ "/system.hive"
  (.ok localPath,
   { localHive := some env.hive,
     events := w.events ++ [Event.download remote localPath] })

/-- Model of `Image._upload_virtio`: format the version string, resolve
the architecture (a dict lookup, raising `KeyError` on a miss), check
the version map, then create the destination directory if absent and
upload every resolved source file. -/
def uploadVirtioM (env : Env) (virtio_base : String) (w : World) : Except Err Unit × World :=
  let version := toString env.major ++ "." ++ toString env.minor
  match winArchMap env.arch with
  | none => (.error (.unsupportedArchitecture env.arch), w)
  | some win_arch =>
    match versionMap version with
    | none => (.error (.unsupportedGuestVersion version), w)
    | some pkg =>
      let source_path := virtio_base ++ "/" ++ pkg ++ "/" ++ win_arch
      let uploads := env.sourceFiles.map
        (fun f => Event.upload (source_path ++ "/" ++ f) (destPath ++ "/" ++ f))
      let evs := (if env.destDirIsDir then [] else [Event.mkdirP destPath]) ++ uploads
      (.ok (), { w with events := w.events ++ evs })

/-- Model of `Image._stub_viostor`: open a `SimpleHivex` on the
downloaded hive file, run the fixed edit script, then commit, which
flushes the in-memory hive to the backing file in one operation. -/
def stubViostorM (w : World) : Except Err Unit × World :=
  match w.localHive with
  | none => (.error .noHiveFile, w)
  | some hv =>
    match SimpleHivex.init hv with
    | .error e => (.error e, w)
    | .ok sh0 =>
      match SimpleHivex.stubScript sh0 with
      | .error e => (.error e, w)
      | .ok sh =>
        (.ok (), { localHive := some sh.h, events := w.events ++ [Event.commitHive] })

/-- Model of `Image._windows_common_fixups`: make the temporary
directory, download the system hive, stage the virtio drivers, then
inject the storage-driver stub into the downloaded hive. -/
def windowsCommonFixups (env : Env) (w : World) : Except Err Unit × World :=
  let r1 := downloadHiveM env w
  match r1.1 with
  | .error e => (.error e, r1.2)
  | .ok _ =>
    let r2 := uploadVirtioM env "virtio" r1.2
    match r2.1 with
    | .error e => (.error e, r2.2)
    | .ok _ => stubViostorM r2.2

/-- Model of `Image.convert_kvm_windows` (returns Python `None`). -/
def convert_kvm_windows (env : Env) (w : World) : Except Err (Option Bool) × World :=
  let r := windowsCommonFixups env w
  match r.1 with
  | .error e => (.error e, r.2)
  | .ok _ => (.ok none, r.2)

/-- Model of `Image.convert`: compose the routine name from the
destination hypervisor and the inspected OS type, dispatch to it, and
fail with a converter-naming error when no routine exists. -/
def convert (env : Env) (destination_hypervisor : String) (w : World) : Except Err (Option Bool) × World :=
  let name := "convert_" ++ destination_hypervisor ++ "_" ++ env.ostype
  if name = "convert_kvm_windows" then convert_kvm_windows env w
  else if name = "convert_xen_windows" then
    (.error (.notImplemented "Sorry.  No Xen specific conversion yet"), w)
  else if name = "convert_kvm_linux" then (.ok (some true), w)
  else if name = "convert_xen_linux" then
    (.error (.notImplemented "Sorry. No Xen specific conversion yet"), w)
  else (.error (.noConverter destination_hypervisor env.ostype), w)

end Image

/-- Modelled from the spec: navigation that resolves the first segment
literally with no alias substitution, used to state the missing-Select
behaviour of `navigate_to` ("no substitution"). -/
def navigateLiteral (sh : SH) (key_path : String) : Except Err SH :=
  match pySplit key_path with
  | [] => .error .indexError
  | k0 :: rest =>
    let st := if k0 = "" then (rest, ({ h := sh.h, at_root := true, current_node := hiveRoot, ccs := sh.ccs } : SH)) else (k0 :: rest, sh)
    SimpleHivex.navLoop st.2 st.1

/-- Name of the node at handle `n`. -/
def nodeName (h : Hivex) (n : Nat) : Option String :=
  h.nodes[n]?.map HNode.name

/-- Well-formedness of a hive: sibling names are unique, as the
registry format guarantees. -/
def wf (h : Hivex) : Prop :=
  ∀ p a, childCount h.nodes p a ≤ 1

/-- Executable sufficient condition for `wf`: no two nodes share the
same (parent, name) pair. -/
def nodupPairs : List HNode → Bool
  | [] => true
  | nd :: rest =>
    rest.all (fun nd' => !(nd'.parent == nd.parent && nd'.name == nd.name)) && nodupPairs rest

/-- A small concrete system hive: `Select\Current = 2`, a
`ControlSet002` tree holding the critical-device database and the
services key. -/
def demoHive : Hivex := ⟨[
  ⟨none, "", []⟩,
  ⟨some 0, "Select", [⟨"Current", 4, [2, 0, 0, 0]⟩]⟩,
  ⟨some 0, "ControlSet002", []⟩,
  ⟨some 2, "Control", []⟩,
  ⟨some 3, "CriticalDeviceDatabase", []⟩,
  ⟨some 2, "Services", []⟩]⟩

/-- A concrete non-system hive: no `Select` key, a literal
`CurrentControlSet` child with one subkey. -/
def demoHiveNoSelect : Hivex := ⟨[
  ⟨none, "", []⟩,
  ⟨some 0, "CurrentControlSet", []⟩,
  ⟨some 1, "X", []⟩]⟩

/-- A concrete inspected Windows Server 2008 R2 guest on x86_64 with
one driver file to stage. -/
def demoEnv : Env := ⟨demoHive, 6, 1, "x86_64", "windows", ["VIOSTOR.SYS"], false⟩

/-! ### Structural lemmas about the node store -/


theorem findChild_lt_length {l : List HNode} {p : Nat} {a : String} {i : Nat}
    (h : findChild l p a = some i) : i < l.length := by
  induction l generalizing i with
  | nil => simp [findChild] at h
  | cons nd rest ih =>
    by_cases hnd : nd.parent = some p ∧ nd.name = a
    · simp [findChild, hnd] at h
      subst h
      simp
    · simp [findChild, hnd] at h
      obtain ⟨j, hj, rfl⟩ := h
      have := ih hj
      simp
      omega

theorem findChild_get {l : List HNode} {p : Nat} {a : String} {i : Nat}
    (h : findChild l p a = some i) :
    ∃ nd, l[i]? = some nd ∧ nd.parent = some p ∧ nd.name = a := by
  induction l generalizing i with
  | nil => simp [findChild] at h
  | cons nd rest ih =>
    by_cases hnd : nd.parent = some p ∧ nd.name = a
    · simp [findChild, hnd] at h
      subst h
      exact ⟨nd, by simp, hnd⟩
    · simp [findChild, hnd] at h
      obtain ⟨j, hj, rfl⟩ := h
      obtain ⟨nd', hnd', hp, hn⟩ := ih hj
      exact ⟨nd', by simpa using hnd', hp, hn⟩

theorem findChild_append_some {l l2 : List HNode} {p : Nat} {a : String} {i : Nat}
    (h : findChild l p a = some i) : findChild (l ++ l2) p a = some i := by
  induction l generalizing i with
  | nil => simp [findChild] at h
  | cons nd rest ih =>
    by_cases hnd : nd.parent = some p ∧ nd.name = a
    · simp [findChild, hnd] at h ⊢
      exact h
    · simp [findChild, hnd] at h ⊢
      obtain ⟨j, hj, rfl⟩ := h
      exact ⟨j, ih hj, rfl⟩

theorem findChild_append_none {l l2 : List HNode} {p : Nat} {a : String}
    (h : findChild l p a = none) :
    findChild (l ++ l2) p a = (findChild l2 p a).map (fun i => i + l.length) := by
  induction l with
  | nil => simp
  | cons nd rest ih =>
    by_cases hnd : nd.parent = some p ∧ nd.name = a
    · simp [findChild, hnd] at h
    · simp [findChild, hnd] at h ⊢
      rw [ih h]
      cases findChild l2 p a <;> simp
      omega

theorem findChild_none_count_zero {l : List HNode} {p : Nat} {a : String}
    (h : findChild l p a = none) : childCount l p a = 0 := by
  induction l with
  | nil => rfl
  | cons nd rest ih =>
    by_cases hnd : nd.parent = some p ∧ nd.name = a
    · simp [findChild, hnd] at h
    · simp [findChild, hnd] at h
      simp [childCount, hnd, ih h]

theorem findChild_some_count_pos {l : List HNode} {p : Nat} {a : String} {i : Nat}
    (h : findChild l p a = some i) : 1 ≤ childCount l p a := by
  induction l generalizing i with
  | nil => simp [findChild] at h
  | cons nd rest ih =>
    by_cases hnd : nd.parent = some p ∧ nd.name = a
    · simp [childCount, hnd]
    · simp [findChild, hnd] at h
      obtain ⟨j, hj, rfl⟩ := h
      simp [childCount, hnd]
      exact ih hj

theorem childCount_append (l l2 : List HNode) (p : Nat) (a : String) :
    childCount (l ++ l2) p a = childCount l p a + childCount l2 p a := by
  induction l with
  | nil => simp [childCount]
  | cons nd rest ih =>
    simp [childCount, ih]
    omega

theorem setNodeValue_length (l : List HNode) (n : Nat) (v : RegValue) :
    (setNodeValue l n v).length = l.length := by
  induction l generalizing n with
  | nil => rfl
  | cons nd rest ih =>
    cases n with
    | zero => simp [setNodeValue]
    | succ m => simp [setNodeValue, ih]

theorem findChild_setNodeValue (l : List HNode) (n : Nat) (v : RegValue) (p : Nat) (a : String) :
    findChild (setNodeValue l n v) p a = findChild l p a := by
  induction l generalizing n with
  | nil => rfl
  | cons nd rest ih =>
    cases n with
    | zero => simp [setNodeValue, findChild]
    | succ m => simp [setNodeValue, findChild, ih]

theorem childCount_setNodeValue (l : List HNode) (n : Nat) (v : RegValue) (p : Nat) (a : String) :
    childCount (setNodeValue l n v) p a = childCount l p a := by
  induction l generalizing n with
  | nil => rfl
  | cons nd rest ih =>
    cases n with
    | zero => simp [setNodeValue, childCount]
    | succ m => simp [setNodeValue, childCount, ih]

theorem getElem?_setNodeValue_ne (l : List HNode) (n m : Nat) (v : RegValue) (h : m ≠ n) :
    (setNodeValue l n v)[m]? = l[m]? := by
  induction l generalizing n m with
  | nil => rfl
  | cons nd rest ih =>
    cases n with
    | zero =>
      cases m with
      | zero => exact absurd rfl h
      | succ k => simp [setNodeValue]
    | succ n' =>
      cases m with
      | zero => simp [setNodeValue]
      | succ k => simpa [setNodeValue] using ih n' k (by omega)

theorem getElem?_setNodeValue_eq (l : List HNode) (n : Nat) (v : RegValue) :
    (setNodeValue l n v)[n]? = l[n]?.map (fun nd => { nd with vals := setVal nd.vals v }) := by
  induction l generalizing n with
  | nil => rfl
  | cons nd rest ih =>
    cases n with
    | zero => simp [setNodeValue]
    | succ n' => simpa [setNodeValue] using ih n'

theorem lookupVal_setVal_self (vs : List RegValue) (v : RegValue) :
    lookupVal (setVal vs v) v.key = some v := by
  induction vs with
  | nil => simp [setVal, lookupVal]
  | cons w rest ih =>
    by_cases hw : w.key = v.key
    · simp [setVal, lookupVal, hw]
    · simp [setVal, lookupVal, hw, ih]

theorem lookupVal_setVal_ne (vs : List RegValue) (v : RegValue) (k : String) (h : k ≠ v.key) :
    lookupVal (setVal vs v) k = lookupVal vs k := by
  induction vs with
  | nil => simp [setVal, lookupVal, Ne.symm h]
  | cons w rest ih =>
    by_cases hw : w.key = v.key
    · simp [setVal, lookupVal, hw, Ne.symm h]
    · by_cases hk : w.key = k
      · simp [setVal, lookupVal, hw, hk, h, Ne.symm h]
      · simp [setVal, lookupVal, hw, hk, ih]

theorem getElem?_append_lt {l l2 : List HNode} {m : Nat} (h : m < l.length) :
    (l ++ l2)[m]? = l[m]? := by
  induction l generalizing m with
  | nil => simp at h
  | cons nd rest ih =>
    cases m with
    | zero => simp
    | succ k => simpa using ih (by simpa using h)

theorem getElem?_append_self (l l2 : List HNode) (nd : HNode) :
    (l ++ nd :: l2)[l.length]? = some nd := by
  induction l with
  | nil => simp
  | cons nd' rest ih => simpa using ih

theorem childCount_eq_one {h : Hivex} {p : Nat} {a : String} {i : Nat}
    (hwf : wf h) (hf : findChild h.nodes p a = some i) :
    childCount h.nodes p a = 1 := by
  have h1 := findChild_some_count_pos hf
  have h2 := hwf p a
  omega

theorem childCount_eq_zero_of_all {l : List HNode} {p : Nat} {a : String}
    (h : ∀ nd ∈ l, ¬(nd.parent = some p ∧ nd.name = a)) : childCount l p a = 0 := by
  induction l with
  | nil => rfl
  | cons nd rest ih =>
    have hnd := h nd (by simp)
    simp [childCount, hnd]
    exact ih (fun nd' hm => h nd' (by simp [hm]))

theorem wf_of_nodupPairs {l : List HNode} (h : nodupPairs l = true) : wf ⟨l⟩ := by
  intro p a
  induction l with
  | nil => simp [childCount]
  | cons nd rest ih =>
    simp [nodupPairs, List.all_eq_true] at h
    obtain ⟨hall, hrest⟩ := h
    by_cases hnd : nd.parent = some p ∧ nd.name = a
    · have hz : childCount rest p a = 0 := by
        apply childCount_eq_zero_of_all
        intro nd' hm hc
        rcases hall nd' hm with h1 | h1
        · exact h1 (by rw [hc.1, hnd.1])
        · exact h1 (by rw [hc.2, hnd.2])
      simp [childCount, hnd, hz]
    · simp [childCount, hnd]
      exact ih hrest

/-! ### Effect of the editor operations -/

theorem getVal_setNode_self {h : Hivex} {n : Nat} (v : RegValue) (hn : n < h.nodes.length) :
    getVal ⟨setNodeValue h.nodes n v⟩ n v.key = some v := by
  have hnd : h.nodes[n]? = some h.nodes[n] := List.getElem?_eq_getElem hn
  simp [getVal, getElem?_setNodeValue_eq, hnd, lookupVal_setVal_self]

theorem getVal_setNode_other_key {h : Hivex} {n : Nat} (v : RegValue) {k : String}
    (hk : k ≠ v.key) : getVal ⟨setNodeValue h.nodes n v⟩ n k = getVal h n k := by
  cases hnd : h.nodes[n]? with
  | none => simp [getVal, getElem?_setNodeValue_eq, hnd]
  | some nd => simp [getVal, getElem?_setNodeValue_eq, hnd, lookupVal_setVal_ne _ _ _ hk]

theorem getVal_setNode_other_node {h : Hivex} {n m : Nat} (v : RegValue) (k : String)
    (hm : m ≠ n) : getVal ⟨setNodeValue h.nodes n v⟩ m k = getVal h m k := by
  simp [getVal, getElem?_setNodeValue_ne _ _ _ _ hm]

theorem nodeName_setNode (h : Hivex) (n m : Nat) (v : RegValue) :
    nodeName ⟨setNodeValue h.nodes n v⟩ m = nodeName h m := by
  by_cases hm : m = n
  · subst hm
    cases hnd : h.nodes[m]? with
    | none => simp [nodeName, getElem?_setNodeValue_eq, hnd]
    | some nd => simp [nodeName, getElem?_setNodeValue_eq, hnd]
  · simp [nodeName, getElem?_setNodeValue_ne _ _ _ _ hm]

theorem wf_setNode {h : Hivex} (n : Nat) (v : RegValue) (hwf : wf h) :
    wf ⟨setNodeValue h.nodes n v⟩ := by
  intro p a
  rw [childCount_setNodeValue]
  exact hwf p a

theorem nodeName_of_findChild {h : Hivex} {p : Nat} {a : String} {c : Nat}
    (hf : findChild h.nodes p a = some c) : nodeName h c = some a := by
  obtain ⟨nd, hnd, _, hname⟩ := findChild_get hf
  simp [nodeName, hnd, hname]

/-- Full effect of `SimpleHivex.add_subkey` on a well-formed hive:
idempotent creation, cursor on the (unique) child, structure of the
rest of the hive untouched. -/
theorem add_subkey_spec (sh : SH) (a : String) (hwf : wf sh.h) :
    ∃ h' c, SimpleHivex.add_subkey sh a = ⟨h', false, c, sh.ccs⟩ ∧
      wf h' ∧
      findChild h'.nodes sh.current_node a = some c ∧
      c < h'.nodes.length ∧
      sh.h.nodes.length ≤ h'.nodes.length ∧
      nodeName h' c = some a ∧
      childCount h'.nodes sh.current_node a = 1 ∧
      (∀ p b i, findChild sh.h.nodes p b = some i → findChild h'.nodes p b = some i) ∧
      (∀ p b, b ≠ a → childCount h'.nodes p b = childCount sh.h.nodes p b) ∧
      (∀ m k, m < sh.h.nodes.length → getVal h' m k = getVal sh.h m k) ∧
      (∀ m, m < sh.h.nodes.length → nodeName h' m = nodeName sh.h m) := by
  cases hf : findChild sh.h.nodes sh.current_node a with
  | some c0 =>
    refine ⟨sh.h, c0, ?_, hwf, hf, findChild_lt_length hf, le_rfl,
      nodeName_of_findChild hf, childCount_eq_one hwf hf,
      fun p b i hi => hi, fun p b _ => rfl, fun m k _ => rfl, fun m _ => rfl⟩
    simp [SimpleHivex.add_subkey, hf]
  | none =>
    have hcnt0 : childCount sh.h.nodes sh.current_node a = 0 := findChild_none_count_zero hf
    set nd : HNode := ⟨some sh.current_node, a, []⟩ with hnddef
    have hfind : findChild (sh.h.nodes ++ [nd]) sh.current_node a = some sh.h.nodes.length := by
      rw [findChild_append_none hf]
      simp [findChild, hnddef]
    refine ⟨⟨sh.h.nodes ++ [nd]⟩, sh.h.nodes.length, ?_, ?_, hfind, ?_, ?_, ?_, ?_, ?_, ?_, ?_, ?_⟩
    · simp [SimpleHivex.add_subkey, hf, addChild, hnddef]
    · intro p b
      rw [childCount_append]
      by_cases hpb : p = sh.current_node ∧ b = a
      · obtain ⟨rfl, rfl⟩ := hpb
        simp [childCount, hnddef, hcnt0]
      · have h1 : childCount [nd] p b = 0 := by
          apply childCount_eq_zero_of_all
          intro nd' hm hc
          simp at hm
          subst hm
          simp [hnddef] at hc
          exact hpb ⟨hc.1.symm, hc.2.symm⟩
        have h2 := hwf p b
        omega
    · simp
    · simp
    · simp [nodeName, getElem?_append_self sh.h.nodes [] nd, hnddef]
    · rw [childCount_append]
      simp [childCount, hnddef, hcnt0]
    · intro p b i hi
      exact findChild_append_some hi
    · intro p b hb
      rw [childCount_append]
      have h1 : childCount [nd] p b = 0 := by
        apply childCount_eq_zero_of_all
        intro nd' hm hc
        simp at hm
        subst hm
        simp [hnddef] at hc
        exact hb hc.2.symm
      omega
    · intro m k hm
      simp [getVal, getElem?_append_lt hm]
    · intro m hm
      simp [nodeName, getElem?_append_lt hm]

/-! ### Navigation lemmas -/

theorem navigate_to_cdd (sh : SH) :
    SimpleHivex.navigate_to sh cddPath =
      SimpleHivex.navLoop ⟨sh.h, true, hiveRoot, sh.ccs⟩ [sh.ccs, "Control", "CriticalDeviceDatabase"] := by
  have hsplit : pySplit cddPath = ["", "CurrentControlSet", "Control", "CriticalDeviceDatabase"] := by
    decide
  simp [SimpleHivex.navigate_to, hsplit]

theorem navigate_to_services (sh : SH) :
    SimpleHivex.navigate_to sh servicesPath =
      SimpleHivex.navLoop ⟨sh.h, true, hiveRoot, sh.ccs⟩ [sh.ccs, "Services"] := by
  have hsplit : pySplit servicesPath = ["", "CurrentControlSet", "Services"] := by
    decide
  simp [SimpleHivex.navigate_to, hsplit]

theorem add_reg_sz_eq (sh : SH) (k v : String) :
    SimpleHivex.add_reg_sz sh k v =
      .ok ⟨⟨setNodeValue sh.h.nodes sh.current_node ⟨k, REG_SZ, utf16le v⟩⟩, sh.at_root, sh.current_node, sh.ccs⟩ :=
  rfl

theorem add_reg_expand_sz_eq (sh : SH) (k v : String) :
    SimpleHivex.add_reg_expand_sz sh k v =
      .ok ⟨⟨setNodeValue sh.h.nodes sh.current_node ⟨k, REG_EXPAND_SZ, utf16le v⟩⟩, sh.at_root, sh.current_node, sh.ccs⟩ :=
  rfl

theorem add_reg_dword_eq (sh : SH) (k : String) (n : Int) (h0 : 0 ≤ n) (h1 : n < 4294967296) :
    SimpleHivex.add_reg_dword sh k n =
      .ok ⟨⟨setNodeValue sh.h.nodes sh.current_node ⟨k, REG_DWORD, packI n.toNat⟩⟩, sh.at_root, sh.current_node, sh.ccs⟩ := by
  simp [SimpleHivex.add_reg_dword, SimpleHivex.add_value, SimpleHivex.encodeValue,
    REG_DWORD, REG_SZ, REG_EXPAND_SZ, h0, h1]

/-! ### Effect of one stub iteration -/

theorem stubOne_spec (sh : SH) (sfx : String) (n1 n2 d : Nat)
    (hwf : wf sh.h)
    (hd1 : findChild sh.h.nodes hiveRoot sh.ccs = some n1)
    (hd2 : findChild sh.h.nodes n1 "Control" = some n2)
    (hd3 : findChild sh.h.nodes n2 "CriticalDeviceDatabase" = some d) :
    ∃ sh', SimpleHivex.stubOne sh sfx = .ok sh' ∧ sh'.ccs = sh.ccs ∧ wf sh'.h ∧
      sh.h.nodes.length ≤ sh'.h.nodes.length ∧
      (∀ p b i, findChild sh.h.nodes p b = some i → findChild sh'.h.nodes p b = some i) ∧
      (∀ p b, b ≠ pciName sfx → childCount sh'.h.nodes p b = childCount sh.h.nodes p b) ∧
      (∀ m k, m < sh.h.nodes.length → nodeName sh.h m ≠ some (pciName sfx) →
        getVal sh'.h m k = getVal sh.h m k) ∧
      (∀ m, m < sh.h.nodes.length → nodeName sh'.h m = nodeName sh.h m) ∧
      childCount sh'.h.nodes d (pciName sfx) = 1 ∧
      (∃ c, findChild sh'.h.nodes d (pciName sfx) = some c ∧
        getVal sh'.h c "ClassGUID" = some ⟨"ClassGUID", REG_SZ, utf16le classGuid⟩ ∧
        getVal sh'.h c "Service" = some ⟨"Service", REG_SZ, utf16le "viostor"⟩) := by
  have hnav : SimpleHivex.navigate_to sh cddPath = .ok ⟨sh.h, false, d, sh.ccs⟩ := by
    rw [navigate_to_cdd]
    simp [SimpleHivex.navLoop, hd1, hd2, hd3]
  obtain ⟨h1, c, heq, hwf1, hfc, hclt, hlen1, hname_c, hcnt1, hfpres, hcpres, hvpres, hnpres⟩ :=
    add_subkey_spec ⟨sh.h, false, d, sh.ccs⟩ (pciName sfx) hwf
  set v1 : RegValue := ⟨"ClassGUID", REG_SZ, utf16le classGuid⟩ with hv1
  set v2 : RegValue := ⟨"Service", REG_SZ, utf16le "viostor"⟩ with hv2
  set hA : Hivex := ⟨setNodeValue h1.nodes c v1⟩ with hhA
  set hB : Hivex := ⟨setNodeValue hA.nodes c v2⟩ with hhB
  have hstep : SimpleHivex.stubOne sh sfx = .ok ⟨hB, false, c, sh.ccs⟩ := by
    simp [SimpleHivex.stubOne, hnav, heq, add_reg_sz_eq, hhA, hhB, hv1, hv2]
  have hlenA : hA.nodes.length = h1.nodes.length := setNodeValue_length _ _ _
  have hlenB : hB.nodes.length = hA.nodes.length := setNodeValue_length _ _ _
  refine ⟨⟨hB, false, c, sh.ccs⟩, hstep, rfl, ?_, ?_, ?_, ?_, ?_, ?_, ?_, ?_⟩
  · exact wf_setNode _ _ (wf_setNode _ _ hwf1)
  · simp only [hhB, hhA] at *
    omega
  · intro p b i hi
    simp only [hhB, hhA, findChild_setNodeValue]
    exact hfpres p b i hi
  · intro p b hb
    simp only [hhB, hhA, childCount_setNodeValue]
    exact hcpres p b hb
  · intro m k hm hname
    have hmc : m ≠ c := by
      intro hEq
      subst hEq
      rw [hnpres m hm] at hname_c
      exact hname hname_c
    simp only [hhB, hhA]
    rw [getVal_setNode_other_node _ _ hmc, getVal_setNode_other_node _ _ hmc]
    exact hvpres m k hm
  · intro m hm
    simp only [hhB, hhA]
    rw [nodeName_setNode, nodeName_setNode]
    exact hnpres m hm
  · simp only [hhB, hhA, childCount_setNodeValue]
    exact hcnt1
  · refine ⟨c, ?_, ?_, ?_⟩
    · simp only [hhB, hhA, findChild_setNodeValue]
      exact hfc
    · simp only [hhB]
      rw [show "ClassGUID" = v1.key from rfl]
      rw [getVal_setNode_other_key]
      · simp only [hhA]
        exact getVal_setNode_self v1 hclt
      · simp [hv1, hv2]
    · simp only [hhB]
      have : c < hA.nodes.length := by omega
      exact getVal_setNode_self v2 this

theorem stubServices_spec (sh : SH) (n1 s : Nat)
    (hwf : wf sh.h)
    (hd1 : findChild sh.h.nodes hiveRoot sh.ccs = some n1)
    (hs2 : findChild sh.h.nodes n1 "Services" = some s) :
    ∃ sh', SimpleHivex.stubServices sh = .ok sh' ∧ sh'.ccs = sh.ccs ∧ wf sh'.h ∧
      sh.h.nodes.length ≤ sh'.h.nodes.length ∧
      (∀ p b i, findChild sh.h.nodes p b = some i → findChild sh'.h.nodes p b = some i) ∧
      (∀ p b, b ≠ "viostor" → childCount sh'.h.nodes p b = childCount sh.h.nodes p b) ∧
      (∀ m k, m < sh.h.nodes.length → nodeName sh.h m ≠ some "viostor" →
        getVal sh'.h m k = getVal sh.h m k) ∧
      (∀ m, m < sh.h.nodes.length → nodeName sh'.h m = nodeName sh.h m) ∧
      childCount sh'.h.nodes s "viostor" = 1 ∧
      (∃ cv, findChild sh'.h.nodes s "viostor" = some cv ∧
        getVal sh'.h cv "ErrorControl" = some ⟨"ErrorControl", REG_DWORD, packI 1⟩ ∧
        getVal sh'.h cv "Group" = some ⟨"Group", REG_SZ, utf16le "SCSI miniport"⟩ ∧
        getVal sh'.h cv "Start" = some ⟨"Start", REG_DWORD, packI 0⟩ ∧
        getVal sh'.h cv "Tag" = some ⟨"Tag", REG_DWORD, packI 33⟩ ∧
        getVal sh'.h cv "Type" = some ⟨"Type", REG_DWORD, packI 1⟩ ∧
        getVal sh'.h cv "ImagePath" = some ⟨"ImagePath", REG_EXPAND_SZ, utf16le imagePath⟩) := by
  have hnav : SimpleHivex.navigate_to sh servicesPath = .ok ⟨sh.h, false, s, sh.ccs⟩ := by
    rw [navigate_to_services]
    simp [SimpleHivex.navLoop, hd1, hs2]
  obtain ⟨h1, cv, heq, hwf1, hfc, hclt, hlen1, hname_c, hcnt1, hfpres, hcpres, hvpres, hnpres⟩ :=
    add_subkey_spec ⟨sh.h, false, s, sh.ccs⟩ "viostor" hwf
  set v1 : RegValue := ⟨"ErrorControl", REG_DWORD, packI 1⟩ with hv1
  set v2 : RegValue := ⟨"Group", REG_SZ, utf16le "SCSI miniport"⟩ with hv2
  set v3 : RegValue := ⟨"Start", REG_DWORD, packI 0⟩ with hv3
  set v4 : RegValue := ⟨"Tag", REG_DWORD, packI 33⟩ with hv4
  set v5 : RegValue := ⟨"Type", REG_DWORD, packI 1⟩ with hv5
  set v6 : RegValue := ⟨"ImagePath", REG_EXPAND_SZ, utf16le imagePath⟩ with hv6
  set hA : Hivex := ⟨setNodeValue h1.nodes cv v1⟩ with hhA
  set hB : Hivex := ⟨setNodeValue hA.nodes cv v2⟩ with hhB
  set hC : Hivex := ⟨setNodeValue hB.nodes cv v3⟩ with hhC
  set hD : Hivex := ⟨setNodeValue hC.nodes cv v4⟩ with hhD
  set hE : Hivex := ⟨setNodeValue hD.nodes cv v5⟩ with hhE
  set hF : Hivex := ⟨setNodeValue hE.nodes cv v6⟩ with hhF
  have e1 : SimpleHivex.add_reg_dword ⟨h1, false, cv, sh.ccs⟩ "ErrorControl" 1 = .ok ⟨hA, false, cv, sh.ccs⟩ := by
    rw [add_reg_dword_eq _ _ _ (by omega) (by omega)]
    rfl
  have e3 : SimpleHivex.add_reg_dword ⟨hB, false, cv, sh.ccs⟩ "Start" 0 = .ok ⟨hC, false, cv, sh.ccs⟩ := by
    rw [add_reg_dword_eq _ _ _ (by omega) (by omega)]
    rfl
  have e4 : SimpleHivex.add_reg_dword ⟨hC, false, cv, sh.ccs⟩ "Tag" 33 = .ok ⟨hD, false, cv, sh.ccs⟩ := by
    rw [add_reg_dword_eq _ _ _ (by omega) (by omega)]
    rfl
  have e5 : SimpleHivex.add_reg_dword ⟨hD, false, cv, sh.ccs⟩ "Type" 1 = .ok ⟨hE, false, cv, sh.ccs⟩ := by
    rw [add_reg_dword_eq _ _ _ (by omega) (by omega)]
    rfl
  have hstep : SimpleHivex.stubServices sh = .ok ⟨hF, false, cv, sh.ccs⟩ := by
    simp [SimpleHivex.stubServices, hnav, heq, e1, e3, e4, e5,
      add_reg_sz_eq, add_reg_expand_sz_eq, hhA, hhB, hhC, hhD, hhE, hhF,
      hv1, hv2, hv3, hv4, hv5, hv6]
  have hlenA : hA.nodes.length = h1.nodes.length := setNodeValue_length _ _ _
  have hlenB : hB.nodes.length = hA.nodes.length := setNodeValue_length _ _ _
  have hlenC : hC.nodes.length = hB.nodes.length := setNodeValue_length _ _ _
  have hlenD : hD.nodes.length = hC.nodes.length := setNodeValue_length _ _ _
  have hlenE : hE.nodes.length = hD.nodes.length := setNodeValue_length _ _ _
  have hlenF : hF.nodes.length = hE.nodes.length := setNodeValue_length _ _ _
  refine ⟨⟨hF, false, cv, sh.ccs⟩, hstep, rfl, ?_, ?_, ?_, ?_, ?_, ?_, ?_, ?_⟩
  · exact wf_setNode _ _ (wf_setNode _ _ (wf_setNode _ _ (wf_setNode _ _ (wf_setNode _ _ (wf_setNode _ _ hwf1)))))
  · simp only [hhF, hhE, hhD, hhC, hhB, hhA] at *
    omega
  · intro p b i hi
    simp only [hhF, hhE, hhD, hhC, hhB, hhA, findChild_setNodeValue]
    exact hfpres p b i hi
  · intro p b hb
    simp only [hhF, hhE, hhD, hhC, hhB, hhA, childCount_setNodeValue]
    exact hcpres p b hb
  · intro m k hm hname
    have hmc : m ≠ cv := by
      intro hEq
      subst hEq
      rw [hnpres m hm] at hname_c
      exact hname hname_c
    simp only [hhF, hhE, hhD, hhC, hhB, hhA]
    rw [getVal_setNode_other_node _ _ hmc, getVal_setNode_other_node _ _ hmc,
      getVal_setNode_other_node _ _ hmc, getVal_setNode_other_node _ _ hmc,
      getVal_setNode_other_node _ _ hmc, getVal_setNode_other_node _ _ hmc]
    exact hvpres m k hm
  · intro m hm
    simp only [hhF, hhE, hhD, hhC, hhB, hhA]
    rw [nodeName_setNode, nodeName_setNode, nodeName_setNode, nodeName_setNode,
      nodeName_setNode, nodeName_setNode]
    exact hnpres m hm
  · simp only [hhF, hhE, hhD, hhC, hhB, hhA, childCount_setNodeValue]
    exact hcnt1
  · have hcltA : cv < hA.nodes.length := by omega
    have hcltB : cv < hB.nodes.length := by omega
    have hcltC : cv < hC.nodes.length := by omega
    have hcltD : cv < hD.nodes.length := by omega
    have hcltE : cv < hE.nodes.length := by omega
    refine ⟨cv, ?_, ?_, ?_, ?_, ?_, ?_, ?_⟩
    · simp only [hhF, hhE, hhD, hhC, hhB, hhA, findChild_setNodeValue]
      exact hfc
    · simp only [hhF, hhE, hhD, hhC, hhB]
      rw [show "ErrorControl" = v1.key from rfl]
      rw [getVal_setNode_other_key _ (by simp [hv1, hv6]),
        getVal_setNode_other_key _ (by simp [hv1, hv5]),
        getVal_setNode_other_key _ (by simp [hv1, hv4]),
        getVal_setNode_other_key _ (by simp [hv1, hv3]),
        getVal_setNode_other_key _ (by simp [hv1, hv2])]
      simp only [hhA]
      exact getVal_setNode_self v1 hclt
    · simp only [hhF, hhE, hhD, hhC]
      rw [show "Group" = v2.key from rfl]
      rw [getVal_setNode_other_key _ (by simp [hv2, hv6]),
        getVal_setNode_other_key _ (by simp [hv2, hv5]),
        getVal_setNode_other_key _ (by simp [hv2, hv4]),
        getVal_setNode_other_key _ (by simp [hv2, hv3])]
      simp only [hhB]
      exact getVal_setNode_self v2 hcltA
    · simp only [hhF, hhE, hhD]
      rw [show "Start" = v3.key from rfl]
      rw [getVal_setNode_other_key _ (by simp [hv3, hv6]),
        getVal_setNode_other_key _ (by simp [hv3, hv5]),
        getVal_setNode_other_key _ (by simp [hv3, hv4])]
      simp only [hhC]
      exact getVal_setNode_self v3 hcltB
    · simp only [hhF, hhE]
      rw [show "Tag" = v4.key from rfl]
      rw [getVal_setNode_other_key _ (by simp [hv4, hv6]),
        getVal_setNode_other_key _ (by simp [hv4, hv5])]
      simp only [hhD]
      exact getVal_setNode_self v4 hcltC
    · simp only [hhF]
      rw [show "Type" = v5.key from rfl]
      rw [getVal_setNode_other_key _ (by simp [hv5, hv6])]
      simp only [hhE]
      exact getVal_setNode_self v5 hcltD
    · simp only [hhF]
      rw [show "ImagePath" = v6.key from rfl]
      exact getVal_setNode_self v6 hcltE

/-- Combined effect of the whole `_stub_viostor` edit script on a
well-formed hive whose control set contains the critical-device
database and services keys. -/
theorem stubScript_spec (sh0 : SH) (n1 n2 d s : Nat)
    (hwf : wf sh0.h)
    (hd1 : findChild sh0.h.nodes hiveRoot sh0.ccs = some n1)
    (hd2 : findChild sh0.h.nodes n1 "Control" = some n2)
    (hd3 : findChild sh0.h.nodes n2 "CriticalDeviceDatabase" = some d)
    (hs2 : findChild sh0.h.nodes n1 "Services" = some s) :
    ∃ shF, SimpleHivex.stubScript sh0 = .ok shF ∧ wf shF.h ∧
      (∀ sfx ∈ subsysSuffixes,
        childCount shF.h.nodes d (pciName sfx) = 1 ∧
        ∃ c, findChild shF.h.nodes d (pciName sfx) = some c ∧
          getVal shF.h c "ClassGUID" = some ⟨"ClassGUID", REG_SZ, utf16le classGuid⟩ ∧
          getVal shF.h c "Service" = some ⟨"Service", REG_SZ, utf16le "viostor"⟩) ∧
      childCount shF.h.nodes s "viostor" = 1 ∧
      (∃ cv, findChild shF.h.nodes s "viostor" = some cv ∧
        getVal shF.h cv "ErrorControl" = some ⟨"ErrorControl", REG_DWORD, packI 1⟩ ∧
        getVal shF.h cv "Group" = some ⟨"Group", REG_SZ, utf16le "SCSI miniport"⟩ ∧
        getVal shF.h cv "Start" = some ⟨"Start", REG_DWORD, packI 0⟩ ∧
        getVal shF.h cv "Tag" = some ⟨"Tag", REG_DWORD, packI 33⟩ ∧
        getVal shF.h cv "Type" = some ⟨"Type", REG_DWORD, packI 1⟩ ∧
        getVal shF.h cv "ImagePath" = some ⟨"ImagePath", REG_EXPAND_SZ, utf16le imagePath⟩) := by
  obtain ⟨sh1, ho1, hccs1, hwf1, hlen1, hfp1, hcp1, hvp1, hnp1, hcnt1, c1, hfc1, hgv1a, hgv1b⟩ :=
    stubOne_spec sh0 "00000000" n1 n2 d hwf hd1 hd2 hd3
  have hd1x : findChild sh1.h.nodes hiveRoot sh1.ccs = some n1 := by
    rw [hccs1]
    exact hfp1 _ _ _ hd1
  have hd2x : findChild sh1.h.nodes n1 "Control" = some n2 := hfp1 _ _ _ hd2
  have hd3x : findChild sh1.h.nodes n2 "CriticalDeviceDatabase" = some d := hfp1 _ _ _ hd3
  have hs2x : findChild sh1.h.nodes n1 "Services" = some s := hfp1 _ _ _ hs2
  obtain ⟨sh2, ho2, hccs2, hwf2, hlen2, hfp2, hcp2, hvp2, hnp2, hcnt2, c2, hfc2, hgv2a, hgv2b⟩ :=
    stubOne_spec sh1 "00020000" n1 n2 d hwf1 hd1x hd2x hd3x
  have hd1y : findChild sh2.h.nodes hiveRoot sh2.ccs = some n1 := by
    rw [hccs2, hccs1]
    have := hfp2 _ _ _ hd1x
    rwa [hccs1] at this
  have hd2y : findChild sh2.h.nodes n1 "Control" = some n2 := hfp2 _ _ _ hd2x
  have hd3y : findChild sh2.h.nodes n2 "CriticalDeviceDatabase" = some d := hfp2 _ _ _ hd3x
  have hs2y : findChild sh2.h.nodes n1 "Services" = some s := hfp2 _ _ _ hs2x
  obtain ⟨sh3, ho3, hccs3, hwf3, hlen3, hfp3, hcp3, hvp3, hnp3, hcnt3, c3, hfc3, hgv3a, hgv3b⟩ :=
    stubOne_spec sh2 "00021af4" n1 n2 d hwf2 hd1y hd2y hd3y
  have hd1z : findChild sh3.h.nodes hiveRoot sh3.ccs = some n1 := by
    rw [hccs3, hccs2, hccs1]
    have := hfp3 _ _ _ hd1y
    rwa [hccs2, hccs1] at this
  have hs2z : findChild sh3.h.nodes n1 "Services" = some s := hfp3 _ _ _ hs2y
  obtain ⟨shF, hsv, hccsF, hwfF, hlenF, hfpF, hcpF, hvpF, hnpF, hcntF, cv, hfcv, hgvA, hgvB, hgvC, hgvD, hgvE, hgvF⟩ :=
    stubServices_spec sh3 n1 s hwf3 hd1z hs2z
  -- bundle for suffix 00000000, carried through iterations 2, 3 and the services step
  have hc1lt1 : c1 < sh1.h.nodes.length := findChild_lt_length hfc1
  have hname1 : nodeName sh1.h c1 = some (pciName "00000000") := nodeName_of_findChild hfc1
  have hfc1b : findChild sh2.h.nodes d (pciName "00000000") = some c1 := hfp2 _ _ _ hfc1
  have hgv1ab : getVal sh2.h c1 "ClassGUID" = some ⟨"ClassGUID", REG_SZ, utf16le classGuid⟩ := by
    rw [hvp2 c1 _ hc1lt1 (by rw [hname1]; decide)]
    exact hgv1a
  have hgv1bb : getVal sh2.h c1 "Service" = some ⟨"Service", REG_SZ, utf16le "viostor"⟩ := by
    rw [hvp2 c1 _ hc1lt1 (by rw [hname1]; decide)]
    exact hgv1b
  have hcnt1b : childCount sh2.h.nodes d (pciName "00000000") = 1 := by
    rw [hcp2 _ _ (by decide)]
    exact hcnt1
  have hc1lt2 : c1 < sh2.h.nodes.length := lt_of_lt_of_le hc1lt1 hlen2
  have hname1b : nodeName sh2.h c1 = some (pciName "00000000") := nodeName_of_findChild hfc1b
  have hfc1c : findChild sh3.h.nodes d (pciName "00000000") = some c1 := hfp3 _ _ _ hfc1b
  have hgv1ac : getVal sh3.h c1 "ClassGUID" = some ⟨"ClassGUID", REG_SZ, utf16le classGuid⟩ := by
    rw [hvp3 c1 _ hc1lt2 (by rw [hname1b]; decide)]
    exact hgv1ab
  have hgv1bc : getVal sh3.h c1 "Service" = some ⟨"Service", REG_SZ, utf16le "viostor"⟩ := by
    rw [hvp3 c1 _ hc1lt2 (by rw [hname1b]; decide)]
    exact hgv1bb
  have hcnt1c : childCount sh3.h.nodes d (pciName "00000000") = 1 := by
    rw [hcp3 _ _ (by decide)]
    exact hcnt1b
  have hc1lt3 : c1 < sh3.h.nodes.length := lt_of_lt_of_le hc1lt2 hlen3
  have hname1c : nodeName sh3.h c1 = some (pciName "00000000") := nodeName_of_findChild hfc1c
  have hfc1d : findChild shF.h.nodes d (pciName "00000000") = some c1 := hfpF _ _ _ hfc1c
  have hgv1ad : getVal shF.h c1 "ClassGUID" = some ⟨"ClassGUID", REG_SZ, utf16le classGuid⟩ := by
    rw [hvpF c1 _ hc1lt3 (by rw [hname1c]; decide)]
    exact hgv1ac
  have hgv1bd : getVal shF.h c1 "Service" = some ⟨"Service", REG_SZ, utf16le "viostor"⟩ := by
    rw [hvpF c1 _ hc1lt3 (by rw [hname1c]; decide)]
    exact hgv1bc
  have hcnt1d : childCount shF.h.nodes d (pciName "00000000") = 1 := by
    rw [hcpF _ _ (by decide)]
    exact hcnt1c
  -- bundle for suffix 00020000, carried through iteration 3 and the services step
  have hc2lt2 : c2 < sh2.h.nodes.length := findChild_lt_length hfc2
  have hname2 : nodeName sh2.h c2 = some (pciName "00020000") := nodeName_of_findChild hfc2
  have hfc2c : findChild sh3.h.nodes d (pciName "00020000") = some c2 := hfp3 _ _ _ hfc2
  have hgv2ac : getVal sh3.h c2 "ClassGUID" = some ⟨"ClassGUID", REG_SZ, utf16le classGuid⟩ := by
    rw [hvp3 c2 _ hc2lt2 (by rw [hname2]; decide)]
    exact hgv2a
  have hgv2bc : getVal sh3.h c2 "Service" = some ⟨"Service", REG_SZ, utf16le "viostor"⟩ := by
    rw [hvp3 c2 _ hc2lt2 (by rw [hname2]; decide)]
    exact hgv2b
  have hcnt2c : childCount sh3.h.nodes d (pciName "00020000") = 1 := by
    rw [hcp3 _ _ (by decide)]
    exact hcnt2
  have hc2lt3 : c2 < sh3.h.nodes.length := lt_of_lt_of_le hc2lt2 hlen3
  have hname2c : nodeName sh3.h c2 = some (pciName "00020000") := nodeName_of_findChild hfc2c
  have hfc2d : findChild shF.h.nodes d (pciName "00020000") = some c2 := hfpF _ _ _ hfc2c
  have hgv2ad : getVal shF.h c2 "ClassGUID" = some ⟨"ClassGUID", REG_SZ, utf16le classGuid⟩ := by
    rw [hvpF c2 _ hc2lt3 (by rw [hname2c]; decide)]
    exact hgv2ac
  have hgv2bd : getVal shF.h c2 "Service" = some ⟨"Service", REG_SZ, utf16le "viostor"⟩ := by
    rw [hvpF c2 _ hc2lt3 (by rw [hname2c]; decide)]
    exact hgv2bc
  have hcnt2d : childCount shF.h.nodes d (pciName "00020000") = 1 := by
    rw [hcpF _ _ (by decide)]
    exact hcnt2c
  -- bundle for suffix 00021af4, carried through the services step
  have hc3lt3 : c3 < sh3.h.nodes.length := findChild_lt_length hfc3
  have hname3 : nodeName sh3.h c3 = some (pciName "00021af4") := nodeName_of_findChild hfc3
  have hfc3d : findChild shF.h.nodes d (pciName "00021af4") = some c3 := hfpF _ _ _ hfc3
  have hgv3ad : getVal shF.h c3 "ClassGUID" = some ⟨"ClassGUID", REG_SZ, utf16le classGuid⟩ := by
    rw [hvpF c3 _ hc3lt3 (by rw [hname3]; decide)]
    exact hgv3a
  have hgv3bd : getVal shF.h c3 "Service" = some ⟨"Service", REG_SZ, utf16le "viostor"⟩ := by
    rw [hvpF c3 _ hc3lt3 (by rw [hname3]; decide)]
    exact hgv3b
  have hcnt3d : childCount shF.h.nodes d (pciName "00021af4") = 1 := by
    rw [hcpF _ _ (by decide)]
    exact hcnt3
  refine ⟨shF, ?_, hwfF, ?_, hcntF, cv, hfcv, hgvA, hgvB, hgvC, hgvD, hgvE, hgvF⟩
  · simp [SimpleHivex.stubScript, SimpleHivex.stubCDD, subsysSuffixes, ho1, ho2, ho3, hsv]
  · intro sfx hsfx
    simp [subsysSuffixes] at hsfx
    rcases hsfx with rfl | rfl | rfl
    · exact ⟨hcnt1d, c1, hfc1d, hgv1ad, hgv1bd⟩
    · exact ⟨hcnt2d, c2, hfc2d, hgv2ad, hgv2bd⟩
    · exact ⟨hcnt3d, c3, hfc3d, hgv3ad, hgv3bd⟩

theorem init_shape {hv : Hivex} {sh0 : SH} (h : SimpleHivex.init hv = .ok sh0) :
    sh0.h = hv ∧ sh0.at_root = true ∧ sh0.current_node = hiveRoot := by
  unfold SimpleHivex.init at h
  cases hsel : findChild hv.nodes hiveRoot "Select" with
  | none =>
    rw [hsel] at h
    injection h with h
    subst h
    exact ⟨rfl, rfl, rfl⟩
  | some sel =>
    rw [hsel] at h
    cases hval : getVal hv sel "Current" with
    | none =>
      simp [hval] at h
    | some v =>
      simp only [hval] at h
      injection h with h
      subst h
      exact ⟨rfl, rfl, rfl⟩

/-! ### Claim theorems -/

/-- C2: on every system hive (well-formed, with the control-set tree
present), the storage-driver stub injection writes exactly one
critical-device-database subkey per each of the three fixed
subsystem-ID suffixes, each holding string `ClassGUID` (the storage
class GUID) and string `Service` (`viostor`) values; plus exactly one
services subkey `viostor` holding `ErrorControl = 1`,
`Group = "SCSI miniport"`, `Start = 0`, `Tag = 0x21`, `Type = 1` as
32-bit little-endian integers and an expandable-string `ImagePath`;
and then commits exactly once (one `commitHive` event appended, last). -/
theorem stub_viostor_registry_writes (hv : Hivex) (w : World) (sh0 : SH) (n1 n2 d s : Nat)
    (hwf : wf hv)
    (hloc : w.localHive = some hv)
    (hinit : SimpleHivex.init hv = .ok sh0)
    (hd1 : findChild hv.nodes hiveRoot sh0.ccs = some n1)
    (hd2 : findChild hv.nodes n1 "Control" = some n2)
    (hd3 : findChild hv.nodes n2 "CriticalDeviceDatabase" = some d)
    (hs2 : findChild hv.nodes n1 "Services" = some s) :
    ∃ hv', Image.stubViostorM w = (.ok (), ⟨some hv', w.events ++ [Event.commitHive]⟩) ∧
      (∀ sfx ∈ subsysSuffixes,
        childCount hv'.nodes d (pciName sfx) = 1 ∧
        ∃ c, findChild hv'.nodes d (pciName sfx) = some c ∧
          getVal hv' c "ClassGUID" = some ⟨"ClassGUID", REG_SZ, utf16le classGuid⟩ ∧
          getVal hv' c "Service" = some ⟨"Service", REG_SZ, utf16le "viostor"⟩) ∧
      childCount hv'.nodes s "viostor" = 1 ∧
      (∃ cv, findChild hv'.nodes s "viostor" = some cv ∧
        getVal hv' cv "ErrorControl" = some ⟨"ErrorControl", REG_DWORD, packI 1⟩ ∧
        getVal hv' cv "Group" = some ⟨"Group", REG_SZ, utf16le "SCSI miniport"⟩ ∧
        getVal hv' cv "Start" = some ⟨"Start", REG_DWORD, packI 0⟩ ∧
        getVal hv' cv "Tag" = some ⟨"Tag", REG_DWORD, packI 33⟩ ∧
        getVal hv' cv "Type" = some ⟨"Type", REG_DWORD, packI 1⟩ ∧
        getVal hv' cv "ImagePath" = some ⟨"ImagePath", REG_EXPAND_SZ, utf16le imagePath⟩) ∧
      List.count Event.commitHive (w.events ++ [Event.commitHive]) =
        List.count Event.commitHive w.events + 1 := by
  obtain ⟨hsh0, har, hcur⟩ := init_shape hinit
  have hwf0 : wf sh0.h := by rw [hsh0]; exact hwf
  have hd1x : findChild sh0.h.nodes hiveRoot sh0.ccs = some n1 := by rw [hsh0]; exact hd1
  have hd2x : findChild sh0.h.nodes n1 "Control" = some n2 := by rw [hsh0]; exact hd2
  have hd3x : findChild sh0.h.nodes n2 "CriticalDeviceDatabase" = some d := by rw [hsh0]; exact hd3
  have hs2x : findChild sh0.h.nodes n1 "Services" = some s := by rw [hsh0]; exact hs2
  obtain ⟨shF, hscript, hwfF, hcdd, hcnt, hsvc⟩ := stubScript_spec sh0 n1 n2 d s hwf0 hd1x hd2x hd3x hs2x
  refine ⟨shF.h, ?_, hcdd, hcnt, hsvc, ?_⟩
  · simp [Image.stubViostorM, hloc, hinit, hscript]
  · simp

/-- Witness for C2 at the concrete demo hive. -/
theorem stub_viostor_registry_writes_witness :
    SimpleHivex.init demoHive = .ok ⟨demoHive, true, 0, "ControlSet002"⟩ ∧
    ∃ hv', Image.stubViostorM ⟨some demoHive, []⟩ = (.ok (), ⟨some hv', [Event.commitHive]⟩) ∧
      childCount hv'.nodes 4 (pciName "00021af4") = 1 ∧
      childCount hv'.nodes 5 "viostor" = 1 := by
  refine ⟨rfl, ?_⟩
  obtain ⟨hv', h1, h2, h3, _⟩ :=
    stub_viostor_registry_writes demoHive ⟨some demoHive, []⟩ ⟨demoHive, true, 0, "ControlSet002"⟩
      2 3 4 5 (wf_of_nodupPairs (by decide)) rfl rfl
      (by decide) (by decide) (by decide) (by decide)
  exact ⟨hv', h1, (h2 "00021af4" (by decide)).1, h3⟩

/-! ### Path splitting lemmas -/

theorem splitSlash_ne_nil (cs : List Char) : splitSlash cs ≠ [] := by
  cases cs with
  | nil => simp [splitSlash]
  | cons c rest =>
    simp only [splitSlash]
    cases h : splitSlash rest with
    | nil => simp
    | cons g gs =>
      by_cases hc : c = '/' <;> simp [hc]

theorem splitSlash_sep (cs : List Char) : splitSlash ('/' :: cs) = [] :: splitSlash cs := by
  cases h : splitSlash cs with
  | nil => exact absurd h (splitSlash_ne_nil cs)
  | cons g gs => simp [splitSlash, h]

theorem splitSlash_pre (pre rest : List Char) (h : '/' ∉ pre) :
    splitSlash (pre ++ '/' :: rest) = pre :: splitSlash rest := by
  induction pre with
  | nil => simpa using splitSlash_sep rest
  | cons c pre ih =>
    have hc : c ≠ '/' := by
      intro hEq
      exact h (by simp [hEq])
    have hpre : '/' ∉ pre := fun hm => h (by simp [hm])
    have hrec := ih hpre
    simp [splitSlash, hrec, hc]

theorem string_data_append (a b : String) : (a ++ b).data = a.data ++ b.data := by
  cases a
  cases b
  rfl

theorem string_mk_data (s : String) : String.mk s.data = s := by
  cases s
  rfl

theorem pySplit_pre (name x : String) (h : '/' ∉ name.data) :
    pySplit ("/" ++ name ++ "/" ++ x) = "" :: name :: pySplit x := by
  unfold pySplit
  have h1 : ("/" : String).data = ['/'] := rfl
  have hd : ("/" ++ name ++ "/" ++ x).data = '/' :: (name.data ++ '/' :: x.data) := by
    simp [string_data_append, h1]
  rw [hd, splitSlash_sep, splitSlash_pre _ _ h]
  have h2 : String.mk [] = "" := rfl
  simp [h2, string_mk_data]

theorem navigate_to_slash (sh : SH) (name x : String) (hname : '/' ∉ name.data) :
    SimpleHivex.navigate_to sh ("/" ++ name ++ "/" ++ x) =
      SimpleHivex.navLoop ⟨sh.h, true, hiveRoot, sh.ccs⟩
        ((if name = "CurrentControlSet" then sh.ccs else name) :: pySplit x) := by
  unfold SimpleHivex.navigate_to
  rw [pySplit_pre name x hname]
  simp

theorem navigateLiteral_slash (sh : SH) (name x : String) (hname : '/' ∉ name.data) :
    navigateLiteral sh ("/" ++ name ++ "/" ++ x) =
      SimpleHivex.navLoop ⟨sh.h, true, hiveRoot, sh.ccs⟩ (name :: pySplit x) := by
  unfold navigateLiteral
  rw [pySplit_pre name x hname]
  simp

/-- C4: on a hive with `Select\Current = 2` the editor opens with the
alias `ControlSet002` and navigating `/CurrentControlSet/X` resolves
identically to navigating `/ControlSet002/X`; on a hive with no
`Select` key the editor opens with the literal alias and navigating
`/CurrentControlSet/X` is literal navigation with no substitution. -/
theorem currentcontrolset_alias_resolution
    (hv hv2 : Hivex) (sel : Nat) (v : RegValue) (x : String)
    (hsel : findChild hv.nodes hiveRoot "Select" = some sel)
    (hval : getVal hv sel "Current" = some v)
    (hdw : value_dword v.value = 2)
    (hnosel : findChild hv2.nodes hiveRoot "Select" = none) :
    (SimpleHivex.init hv = .ok ⟨hv, true, hiveRoot, "ControlSet002"⟩ ∧
      SimpleHivex.navigate_to ⟨hv, true, hiveRoot, "ControlSet002"⟩ ("/CurrentControlSet/" ++ x) =
        SimpleHivex.navigate_to ⟨hv, true, hiveRoot, "ControlSet002"⟩ ("/ControlSet002/" ++ x)) ∧
    (SimpleHivex.init hv2 = .ok ⟨hv2, true, hiveRoot, "CurrentControlSet"⟩ ∧
      SimpleHivex.navigate_to ⟨hv2, true, hiveRoot, "CurrentControlSet"⟩ ("/CurrentControlSet/" ++ x) =
        navigateLiteral ⟨hv2, true, hiveRoot, "CurrentControlSet"⟩ ("/CurrentControlSet/" ++ x)) := by
  have hccs : ("/CurrentControlSet/" ++ x) = "/" ++ "CurrentControlSet" ++ "/" ++ x := by
    rw [show ("/" ++ "CurrentControlSet" ++ "/" : String) = "/CurrentControlSet/" from rfl]
  have hcs2 : ("/ControlSet002/" ++ x) = "/" ++ "ControlSet002" ++ "/" ++ x := by
    rw [show ("/" ++ "ControlSet002" ++ "/" : String) = "/ControlSet002/" from rfl]
  refine ⟨⟨?_, ?_⟩, ⟨?_, ?_⟩⟩
  · simp only [SimpleHivex.init, hsel, hval, hdw]
    rfl
  · rw [hccs, hcs2, navigate_to_slash _ _ _ (by decide), navigate_to_slash _ _ _ (by decide)]
    rw [if_pos rfl, if_neg (by decide)]
  · simp only [SimpleHivex.init, hnosel]
  · rw [hccs, navigate_to_slash _ _ _ (by decide), navigateLiteral_slash _ _ _ (by decide)]
    rw [if_pos rfl]

/-- Witness for C4 at the two concrete demo hives with `X` as tail. -/
theorem currentcontrolset_alias_resolution_witness :
    (SimpleHivex.init demoHive = .ok ⟨demoHive, true, hiveRoot, "ControlSet002"⟩ ∧
      SimpleHivex.navigate_to ⟨demoHive, true, hiveRoot, "ControlSet002"⟩ ("/CurrentControlSet/" ++ "X") =
        SimpleHivex.navigate_to ⟨demoHive, true, hiveRoot, "ControlSet002"⟩ ("/ControlSet002/" ++ "X")) ∧
    (SimpleHivex.init demoHiveNoSelect = .ok ⟨demoHiveNoSelect, true, hiveRoot, "CurrentControlSet"⟩ ∧
      SimpleHivex.navigate_to ⟨demoHiveNoSelect, true, hiveRoot, "CurrentControlSet"⟩ ("/CurrentControlSet/" ++ "X") =
        navigateLiteral ⟨demoHiveNoSelect, true, hiveRoot, "CurrentControlSet"⟩ ("/CurrentControlSet/" ++ "X")) :=
  currentcontrolset_alias_resolution demoHive demoHiveNoSelect 1 ⟨"Current", 4, [2, 0, 0, 0]⟩ "X"
    (by decide) (by decide) (by decide) (by decide)

/-- C5: calling `add_subkey` twice with the same name under the same
parent yields exactly one child (no duplicate and no error: the
operation is total on the model and the second call takes the
found-child branch), and the cursor ends on that same node after each
of the two calls. -/
theorem add_subkey_idempotent (sh : SH) (name : String)
    (hcnt : childCount sh.h.nodes sh.current_node name ≤ 1) :
    ∃ h1 c, SimpleHivex.add_subkey sh name = ⟨h1, false, c, sh.ccs⟩ ∧
      childCount h1.nodes sh.current_node name = 1 ∧
      SimpleHivex.add_subkey ⟨h1, sh.at_root, sh.current_node, sh.ccs⟩ name = ⟨h1, false, c, sh.ccs⟩ := by
  cases hf : findChild sh.h.nodes sh.current_node name with
  | some c0 =>
    have hone : childCount sh.h.nodes sh.current_node name = 1 := by
      have := findChild_some_count_pos hf
      omega
    refine ⟨sh.h, c0, ?_, hone, ?_⟩
    · simp [SimpleHivex.add_subkey, hf]
    · simp [SimpleHivex.add_subkey, hf]
  | none =>
    have hz : childCount sh.h.nodes sh.current_node name = 0 := findChild_none_count_zero hf
    set nd : HNode := ⟨some sh.current_node, name, []⟩ with hnddef
    have hfind : findChild (sh.h.nodes ++ [nd]) sh.current_node name = some sh.h.nodes.length := by
      rw [findChild_append_none hf]
      simp [findChild, hnddef]
    refine ⟨⟨sh.h.nodes ++ [nd]⟩, sh.h.nodes.length, ?_, ?_, ?_⟩
    · simp [SimpleHivex.add_subkey, hf, addChild, hnddef]
    · rw [childCount_append]
      simp [childCount, hnddef, hz]
    · simp [SimpleHivex.add_subkey, hfind]

/-- Witness for C5: a fresh subkey under the demo hive services key. -/
theorem add_subkey_idempotent_witness :
    ∃ h1 c, SimpleHivex.add_subkey ⟨demoHive, false, 5, "ControlSet002"⟩ "viostor" = ⟨h1, false, c, "ControlSet002"⟩ ∧
      childCount h1.nodes 5 "viostor" = 1 ∧
      SimpleHivex.add_subkey ⟨h1, false, 5, "ControlSet002"⟩ "viostor" = ⟨h1, false, c, "ControlSet002"⟩ :=
  add_subkey_idempotent ⟨demoHive, false, 5, "ControlSet002"⟩ "viostor" (by decide)

/-- C6: the value codec is a pure function: strings and expandable
strings encode to the UTF-16 little-endian code units of the text with
no appended terminator, 32-bit integers in range encode to exactly 4
little-endian bytes, and every other type tag fails with the
unsupported-value-type error, in which case `_add_value` writes
nothing (it returns the error before touching the hive). -/
theorem value_codec_spec (sh : SH) (k txt : String) (n : Int) (t : Nat) (v : SimpleHivex.PyVal)
    (hn0 : 0 ≤ n) (hn1 : n < 4294967296)
    (ht1 : t ≠ REG_SZ) (ht2 : t ≠ REG_EXPAND_SZ) (ht3 : t ≠ REG_DWORD) :
    SimpleHivex.encodeValue REG_SZ (.str txt) = .ok (utf16le txt) ∧
    SimpleHivex.encodeValue REG_EXPAND_SZ (.str txt) = .ok (utf16le txt) ∧
    SimpleHivex.encodeValue REG_DWORD (.int n) = .ok (packI n.toNat) ∧
    (packI n.toNat).length = 4 ∧
    SimpleHivex.encodeValue t v = .error (.unsupportedValueType t) ∧
    SimpleHivex.add_value sh t k v = .error (.unsupportedValueType t) := by
  have henc : SimpleHivex.encodeValue t v = .error (.unsupportedValueType t) := by
    simp [SimpleHivex.encodeValue, ht1, ht2, ht3]
  refine ⟨rfl, rfl, ?_, rfl, henc, ?_⟩
  · simp [SimpleHivex.encodeValue, REG_DWORD, REG_SZ, REG_EXPAND_SZ, hn0, hn1]
  · simp [SimpleHivex.add_value, henc]

/-- Witness for C6 at concrete text, integer and a binary type tag. -/
theorem value_codec_spec_witness :
    SimpleHivex.encodeValue REG_SZ (.str "ab") = .ok (utf16le "ab") ∧
    SimpleHivex.encodeValue REG_EXPAND_SZ (.str "ab") = .ok (utf16le "ab") ∧
    SimpleHivex.encodeValue REG_DWORD (.int 33) = .ok (packI (Int.toNat 33)) ∧
    (packI (Int.toNat 33)).length = 4 ∧
    SimpleHivex.encodeValue 3 (.str "blob") = .error (.unsupportedValueType 3) ∧
    SimpleHivex.add_value ⟨demoHive, true, 0, "ControlSet002"⟩ 3 "k" (.str "blob") =
      .error (.unsupportedValueType 3) :=
  value_codec_spec ⟨demoHive, true, 0, "ControlSet002"⟩ "k" "ab" 33 3 (.str "blob")
    (by decide) (by decide) (by decide) (by decide) (by decide)

/-- C10: writing a 32-bit integer value succeeds exactly on the
unsigned 32-bit range: in range the encoder produces exactly 4 bytes;
a negative or too-large integer raises the packing error before any
value is written (the error is returned before the hive is touched). -/
theorem add_reg_dword_range (sh : SH) (k : String) (n m : Int)
    (hn0 : 0 ≤ n) (hn1 : n < 4294967296) (hm : m < 0 ∨ 4294967296 ≤ m) :
    SimpleHivex.add_reg_dword sh k n =
      .ok ⟨⟨setNodeValue sh.h.nodes sh.current_node ⟨k, REG_DWORD, packI n.toNat⟩⟩, sh.at_root, sh.current_node, sh.ccs⟩ ∧
    (packI n.toNat).length = 4 ∧
    SimpleHivex.add_reg_dword sh k m = .error .structError := by
  refine ⟨add_reg_dword_eq sh k n hn0 hn1, rfl, ?_⟩
  have hcond : ¬(0 ≤ m ∧ m < 4294967296) := by omega
  simp [SimpleHivex.add_reg_dword, SimpleHivex.add_value, SimpleHivex.encodeValue,
    REG_DWORD, REG_SZ, REG_EXPAND_SZ, hcond]

/-- Witness for C10 at 33 and -1. -/
theorem add_reg_dword_range_witness :
    SimpleHivex.add_reg_dword ⟨demoHive, true, 0, "ControlSet002"⟩ "Tag" 33 =
      .ok ⟨⟨setNodeValue demoHive.nodes 0 ⟨"Tag", REG_DWORD, packI (Int.toNat 33)⟩⟩, true, 0, "ControlSet002"⟩ ∧
    (packI (Int.toNat 33)).length = 4 ∧
    SimpleHivex.add_reg_dword ⟨demoHive, true, 0, "ControlSet002"⟩ "Tag" (-1) = .error .structError :=
  add_reg_dword_range ⟨demoHive, true, 0, "ControlSet002"⟩ "Tag" 33 (-1)
    (by decide) (by decide) (Or.inl (by decide))

/-- C7 counterexample: at `(major, minor, arch) = (10, 0, "arm")` the
formatted version `10.0` is absent from the version map, yet driver
resolution fails with the architecture error, not the guest-version
error, because the architecture lookup precedes the version check. -/
theorem upload_virtio_version_error_counterexample :
    versionMap "10.0" = none ∧
    (Image.uploadVirtioM ⟨demoHive, 10, 0, "arm", "windows", [], false⟩ "virtio" World.init).1 =
      .error (.unsupportedArchitecture "arm") ∧
    ∀ ver, (Image.uploadVirtioM ⟨demoHive, 10, 0, "arm", "windows", [], false⟩ "virtio" World.init).1 ≠
      .error (.unsupportedGuestVersion ver) := by
  refine ⟨rfl, rfl, ?_⟩
  intro ver h
  rw [show (Image.uploadVirtioM ⟨demoHive, 10, 0, "arm", "windows", [], false⟩ "virtio" World.init).1 =
    .error (.unsupportedArchitecture "arm") from rfl] at h
  simp at h

/-- C7 amended: an architecture absent from the static map fails with
the architecture error; with a supported architecture, a version
absent from the static map fails with the guest-version error; in both
cases the world is unchanged, so no file is staged. -/
theorem upload_virtio_resolution_errors (env : Env) (base : String) (w : World) :
    (winArchMap env.arch = none →
      Image.uploadVirtioM env base w = (.error (.unsupportedArchitecture env.arch), w)) ∧
    (∀ wa, winArchMap env.arch = some wa →
      versionMap (toString env.major ++ "." ++ toString env.minor) = none →
      Image.uploadVirtioM env base w =
        (.error (.unsupportedGuestVersion (toString env.major ++ "." ++ toString env.minor)), w)) := by
  constructor
  · intro h
    simp [Image.uploadVirtioM, h]
  · intro wa hwa hver
    simp [Image.uploadVirtioM, hwa, hver]

/-- Witness for the amended C7 at `(10, 0, "arm")` and `(10, 0, "x86_64")`. -/
theorem upload_virtio_resolution_errors_witness :
    Image.uploadVirtioM ⟨demoHive, 10, 0, "arm", "windows", [], false⟩ "virtio" World.init =
      (.error (.unsupportedArchitecture "arm"), World.init) ∧
    Image.uploadVirtioM ⟨demoHive, 10, 0, "x86_64", "windows", [], false⟩ "virtio" World.init =
      (.error (.unsupportedGuestVersion "10.0"), World.init) :=
  ⟨(upload_virtio_resolution_errors ⟨demoHive, 10, 0, "arm", "windows", [], false⟩ "virtio" World.init).1 rfl,
   (upload_virtio_resolution_errors ⟨demoHive, 10, 0, "x86_64", "windows", [], false⟩ "virtio" World.init).2 "AMD64" rfl rfl⟩

/-- C8: dispatch is a pure function of the (hypervisor, OS type) pair
composed into a routine name: both xen routines fail NotImplemented,
(kvm, linux) succeeds returning True with the world unchanged (no hive
or filesystem mutation), and a pair with no routine fails with a
converter error naming both the hypervisor and the OS type. -/
theorem convert_dispatch_table (env : Env) (w : World) :
    Image.convert { env with ostype := "windows" } "xen" w =
      (.error (.notImplemented "Sorry.  No Xen specific conversion yet"), w) ∧
    Image.convert { env with ostype := "linux" } "xen" w =
      (.error (.notImplemented "Sorry. No Xen specific conversion yet"), w) ∧
    Image.convert { env with ostype := "linux" } "kvm" w = (.ok (some true), w) ∧
    (∀ hyp os, ("convert_" ++ hyp ++ "_" ++ os) ∉
        (["convert_kvm_windows", "convert_xen_windows", "convert_kvm_linux", "convert_xen_linux"] : List String) →
      Image.convert { env with ostype := os } hyp w = (.error (.noConverter hyp os), w)) := by
  refine ⟨rfl, rfl, rfl, ?_⟩
  intro hyp os hmem
  have h1 : ("convert_" ++ hyp ++ "_" ++ os) ≠ "convert_kvm_windows" := by
    intro hEq
    exact hmem (by rw [hEq]; simp)
  have h2 : ("convert_" ++ hyp ++ "_" ++ os) ≠ "convert_xen_windows" := by
    intro hEq
    exact hmem (by rw [hEq]; simp)
  have h3 : ("convert_" ++ hyp ++ "_" ++ os) ≠ "convert_kvm_linux" := by
    intro hEq
    exact hmem (by rw [hEq]; simp)
  have h4 : ("convert_" ++ hyp ++ "_" ++ os) ≠ "convert_xen_linux" := by
    intro hEq
    exact hmem (by rw [hEq]; simp)
  simp [Image.convert, h1, h2, h3, h4]

/-- Witness for C8 at the demo environment and a vmware pair. -/
theorem convert_dispatch_table_witness :
    Image.convert { demoEnv with ostype := "windows" } "xen" World.init =
      (.error (.notImplemented "Sorry.  No Xen specific conversion yet"), World.init) ∧
    Image.convert { demoEnv with ostype := "linux" } "kvm" World.init = (.ok (some true), World.init) ∧
    Image.convert { demoEnv with ostype := "windows" } "vmware" World.init =
      (.error (.noConverter "vmware" "windows"), World.init) :=
  ⟨(convert_dispatch_table demoEnv World.init).1,
   (convert_dispatch_table demoEnv World.init).2.2.1,
   (convert_dispatch_table demoEnv World.init).2.2.2 "vmware" "windows" (by decide)⟩

theorem stubViostorM_err {w : World} {e : Err} {w' : World}
    (h : Image.stubViostorM w = (.error e, w')) : w' = w := by
  unfold Image.stubViostorM at h
  cases hl : w.localHive with
  | none =>
    simp only [hl] at h
    exact (congrArg Prod.snd h).symm
  | some hv =>
    simp only [hl] at h
    cases hi : SimpleHivex.init hv with
    | error e2 =>
      simp only [hi] at h
      exact (congrArg Prod.snd h).symm
    | ok sh0 =>
      simp only [hi] at h
      cases hs : SimpleHivex.stubScript sh0 with
      | error e2 =>
        simp only [hs] at h
        exact (congrArg Prod.snd h).symm
      | ok shF =>
        simp only [hs] at h
        have := congrArg Prod.fst h
        simp at this

/-- C3: a conversion run that raises partway through never commits:
the final world holds no commit event, and the downloaded hive file
(the backing file of the editing session) is either still absent or
byte-identical to the downloaded guest hive. -/
theorem conversion_error_no_commit (env : Env) (dest : String) (e : Err) (w' : World)
    (hrun : Image.convert env dest World.init = (.error e, w')) :
    Event.commitHive ∉ w'.events ∧ (w'.localHive = none ∨ w'.localHive = some env.hive) := by
  by_cases h1 : ("convert_" ++ dest ++ "_" ++ env.ostype) = "convert_kvm_windows"
  · have hdisp : Image.convert env dest World.init = Image.convert_kvm_windows env World.init := by
      simp [Image.convert, h1]
    rw [hdisp] at hrun
    set dl : List Event :=
      [Event.download "/windows/system32/config/system" (tmpdir ++ "/system.hive")] with hdl
    cases harch : winArchMap env.arch with
    | none =>
      have hwcf : Image.windowsCommonFixups env World.init =
          (.error (.unsupportedArchitecture env.arch), ⟨some env.hive, dl⟩) := by
        simp [Image.windowsCommonFixups, Image.downloadHiveM, Image.uploadVirtioM, harch,
          World.init, hdl]
      rw [show Image.convert_kvm_windows env World.init =
          (.error (.unsupportedArchitecture env.arch), ⟨some env.hive, dl⟩) from by
        simp [Image.convert_kvm_windows, hwcf]] at hrun
      have hw' : w' = ⟨some env.hive, dl⟩ := (congrArg Prod.snd hrun).symm
      subst hw'
      exact ⟨by simp [hdl], Or.inr rfl⟩
    | some wa =>
      cases hver : versionMap (toString env.major ++ "." ++ toString env.minor) with
      | none =>
        have hwcf : Image.windowsCommonFixups env World.init =
            (.error (.unsupportedGuestVersion (toString env.major ++ "." ++ toString env.minor)),
              ⟨some env.hive, dl⟩) := by
          simp [Image.windowsCommonFixups, Image.downloadHiveM, Image.uploadVirtioM, harch, hver,
            World.init, hdl]
        rw [show Image.convert_kvm_windows env World.init =
            (.error (.unsupportedGuestVersion (toString env.major ++ "." ++ toString env.minor)),
              ⟨some env.hive, dl⟩) from by
          simp [Image.convert_kvm_windows, hwcf]] at hrun
        have hw' : w' = ⟨some env.hive, dl⟩ := (congrArg Prod.snd hrun).symm
        subst hw'
        exact ⟨by simp [hdl], Or.inr rfl⟩
      | some pkg =>
        set evs : List Event :=
          (if env.destDirIsDir then [] else [Event.mkdirP destPath]) ++
            env.sourceFiles.map
              (fun f => Event.upload ("virtio" ++ "/" ++ pkg ++ "/" ++ wa ++ "/" ++ f) (destPath ++ "/" ++ f)) with hevs
        have hwcf : Image.windowsCommonFixups env World.init =
            Image.stubViostorM ⟨some env.hive, dl ++ evs⟩ := by
          simp [Image.windowsCommonFixups, Image.downloadHiveM, Image.uploadVirtioM, harch, hver,
            World.init, hdl, hevs]
        rw [show Image.convert_kvm_windows env World.init =
            (match (Image.stubViostorM ⟨some env.hive, dl ++ evs⟩).1 with
              | .error e2 => (Except.error e2, (Image.stubViostorM ⟨some env.hive, dl ++ evs⟩).2)
              | .ok _ => (Except.ok none, (Image.stubViostorM ⟨some env.hive, dl ++ evs⟩).2)) from by
          simp only [Image.convert_kvm_windows, hwcf]] at hrun
        cases hres : Image.stubViostorM ⟨some env.hive, dl ++ evs⟩ with
        | mk rs ws =>
          rw [hres] at hrun
          cases rs with
          | error e2 =>
            simp only at hrun
            have hws : ws = ⟨some env.hive, dl ++ evs⟩ := stubViostorM_err hres
            have hw' : w' = ws := (congrArg Prod.snd hrun).symm
            subst hw'
            subst hws
            constructor
            · intro hmem
              simp [hdl, hevs] at hmem
            · exact Or.inr rfl
          | ok u =>
            simp only at hrun
            have := congrArg Prod.fst hrun
            simp at this
  · by_cases h2 : ("convert_" ++ dest ++ "_" ++ env.ostype) = "convert_xen_windows"
    · rw [show Image.convert env dest World.init =
          (.error (.notImplemented "Sorry.  No Xen specific conversion yet"), World.init) from by
        simp [Image.convert, h1, h2]] at hrun
      have hw' : w' = World.init := (congrArg Prod.snd hrun).symm
      subst hw'
      exact ⟨by simp [World.init], Or.inl rfl⟩
    · by_cases h3 : ("convert_" ++ dest ++ "_" ++ env.ostype) = "convert_kvm_linux"
      · rw [show Image.convert env dest World.init = (.ok (some true), World.init) from by
          simp [Image.convert, h1, h2, h3]] at hrun
        have := congrArg Prod.fst hrun
        simp at this
      · by_cases h4 : ("convert_" ++ dest ++ "_" ++ env.ostype) = "convert_xen_linux"
        · rw [show Image.convert env dest World.init =
              (.error (.notImplemented "Sorry. No Xen specific conversion yet"), World.init) from by
            simp [Image.convert, h1, h2, h3, h4]] at hrun
          have hw' : w' = World.init := (congrArg Prod.snd hrun).symm
          subst hw'
          exact ⟨by simp [World.init], Or.inl rfl⟩
        · rw [show Image.convert env dest World.init =
              (.error (.noConverter dest env.ostype), World.init) from by
            simp [Image.convert, h1, h2, h3, h4]] at hrun
          have hw' : w' = World.init := (congrArg Prod.snd hrun).symm
          subst hw'
          exact ⟨by simp [World.init], Or.inl rfl⟩

/-- Witness for C3: the xen/windows run fails and commits nothing. -/
theorem conversion_error_no_commit_witness :
    Event.commitHive ∉
        (Image.convert { demoEnv with ostype := "windows" } "xen" World.init).2.events ∧
    ((Image.convert { demoEnv with ostype := "windows" } "xen" World.init).2.localHive = none ∨
      (Image.convert { demoEnv with ostype := "windows" } "xen" World.init).2.localHive =
        some demoHive) :=
  conversion_error_no_commit { demoEnv with ostype := "windows" } "xen"
    (.notImplemented "Sorry.  No Xen specific conversion yet")
    (Image.convert { demoEnv with ostype := "windows" } "xen" World.init).2 rfl

/-- C1: a successful (kvm, windows) conversion performs, in order,
the hive download, the driver staging and the stub injection with
commit against the downloaded local copy — but it never uploads the
modified hive back to the guest: every upload in the trace targets the
staging directory, none targets the guest hive path. -/
theorem convert_kvm_windows_never_reuploads_hive :
    (Image.convert demoEnv "kvm" World.init).1 = .ok none ∧
    (Image.convert demoEnv "kvm" World.init).2.events =
      [Event.download "/windows/system32/config/system" "/tmp/v2vtmp/system.hive",
       Event.mkdirP "/v2v-virtio",
       Event.upload "virtio/WIN7/AMD64/VIOSTOR.SYS" "/v2v-virtio/VIOSTOR.SYS",
       Event.commitHive] ∧
    ((Image.convert demoEnv "kvm" World.init).2.events.all fun ev =>
      match ev with
      | Event.upload _ dst => !(dst == "/windows/system32/config/system")
      | _ => true) = true := by
  exact ⟨rfl, by decide, by decide⟩

/-- C9: a (kvm, windows) conversion run ends successfully with a trace
that contains no deletion of the temporary download directory: the
source never removes the `mkdtemp` directory on any path. -/
theorem conversion_never_deletes_tmpdir :
    (Image.convert demoEnv "kvm" World.init).1 = .ok none ∧
    ((Image.convert demoEnv "kvm" World.init).2.events.all fun ev =>
      match ev with
      | Event.rmtree _ => false
      | _ => true) = true := by
  exact ⟨rfl, by decide⟩

end VmdkConversion
